import Mathlib

/-
Verification of the crust client library (TypeScript sources: src/index.ts and
the three sibling module variants).  The library submits two kinds of
storage-market transactions (placeStorageOrder, addPrepaid), awaits block
inclusion, scans the emitted events, and resolves a StoredResource.  This file
shallowly embeds the data model and the submission protocol and settles the
frozen claims about it.
-/

namespace CrustClient

/-- A JavaScript-level value as seen through the decoded payload view
(tx.method.toHuman().args): a string, a number, or undefined/other. -/
inductive JsVal where
  | str (s : String)
  | num (n : Int)
  | undef
deriving DecidableEq, Repr

/-- One emitted chain event as destructured by the submission callbacks:
event.method and event.data (the data arguments after toHuman). -/
structure Event where
  method : String
  data : List String
deriving DecidableEq, Repr

/-- One status update delivered to the tx.send / signAndSend callback:
result.isInBlock, result.events, result.txHash (hex) and, when in a block,
the block hash carried in result.status.toHuman().InBlock. -/
structure StatusUpdate where
  isInBlock : Bool
  events : List Event
  txHash : String
  inBlockHash : String
deriving DecidableEq, Repr

/-- The resolved result shape: interface StoredResource { hash; cid }.
The cid is an Option because the placeStorageOrder callback can resolve
while its local cid variable is still undefined. -/
structure StoredResource where
  hash : String
  cid : Option String
deriving DecidableEq, Repr

/-- The decoded view of a raw extrinsic that the raw submission paths
inspect: tx.method.method and tx.method.toHuman().args?.cid. -/
structure Tx where
  methodName : String
  argCid : JsVal
deriving DecidableEq, Repr

/-- Outcome of a promise-producing submission: still pending (never settles),
resolved with a StoredResource, or rejected with an Error message. -/
inductive SubmitResult where
  | pending
  | resolved (r : StoredResource)
  | rejected (msg : String)
deriving DecidableEq, Repr

/-- A submission outcome together with the number of broadcast (tx.send)
calls the path performed. -/
structure SubmitOutcome where
  result : SubmitResult
  sendCalls : Nat
deriving DecidableEq, Repr

/-- The event scan inside the placeStorageOrder callbacks, for one in-block
status update.  The code iterates events with a local uninitialized cid:
a FileSuccess event overwrites cid with the last data argument
(data.pop()?.toHuman()); an ExtrinsicSuccess event resolves with the cid
accumulated so far.  The first resolve call is the one that settles the
promise, so the scan returns the accumulator at the first ExtrinsicSuccess
event, or none when no ExtrinsicSuccess occurs. -/
def scanEvents : List Event → Option String → Option (Option String)
  | [], _ => none
  | e :: rest, cid =>
    let cid2 := if e.method = "FileSuccess" then e.data.getLast? else cid
    if e.method = "ExtrinsicSuccess" then some cid2
    else scanEvents rest cid2

/-- One status-update step of the placeStorageOrder promise.  A promise that
is already resolved ignores further resolve calls; an unresolved promise
acts only on in-block updates, resolving with the transaction hash
(txHash.toHex()) and the scanned cid when the scan finds an
ExtrinsicSuccess event. -/
def placeOrderStep (st : Option StoredResource) (u : StatusUpdate) :
    Option StoredResource :=
  match st with
  | some r => some r
  | none =>
    if u.isInBlock then
      match scanEvents u.events none with
      | some cid => some { hash := u.txHash, cid := cid }
      | none => none
    else none

/-- The placeStorageOrder promise over the whole stream of status updates
(the callback runs once per update, in order). -/
def processUpdates (updates : List StatusUpdate) : Option StoredResource :=
  updates.foldl placeOrderStep none

/-- One status-update step of the addPrepaid promise: on an in-block update
it resolves with the block hash from result.status.toHuman().InBlock and
the content identifier known at invocation; no event scan. -/
def prepaidStep (cid : String) (st : Option StoredResource)
    (u : StatusUpdate) : Option StoredResource :=
  match st with
  | some r => some r
  | none =>
    if u.isInBlock then some { hash := u.inBlockHash, cid := some cid }
    else none

/-- The addPrepaid promise over the whole stream of status updates. -/
def prepaidResolve (cid : String) (updates : List StatusUpdate) :
    Option StoredResource :=
  updates.foldl (prepaidStep cid) none

/-- CrustNoSeed.placeStorageOrderRaw: reject with
"Only Support placeStorageOrder method" before any broadcast when the
decoded call name differs from placeStorageOrder; otherwise broadcast once
and run the placeStorageOrder promise over the update stream. -/
def placeStorageOrderRaw (tx : Tx) (updates : List StatusUpdate) :
    SubmitOutcome :=
  if tx.methodName = "placeStorageOrder" then
    { result :=
        match processUpdates updates with
        | some r => SubmitResult.resolved r
        | none => SubmitResult.pending
      sendCalls := 1 }
  else
    { result := SubmitResult.rejected "Only Support placeStorageOrder method"
      sendCalls := 0 }

/-- CrustNoSeed.addPrepaidAmountRaw: first extract
tx.method.toHuman().args?.cid and reject with "Not Valid Cid" when it is not
a string; then reject with "Only Support addPrepaid method" when the call
name differs from addPrepaid; only then broadcast once and run the addPrepaid
promise. -/
def addPrepaidAmountRaw (tx : Tx) (updates : List StatusUpdate) :
    SubmitOutcome :=
  match tx.argCid with
  | JsVal.str cid =>
    if tx.methodName = "addPrepaid" then
      { result :=
          match prepaidResolve cid updates with
          | some r => SubmitResult.resolved r
          | none => SubmitResult.pending
        sendCalls := 1 }
    else
      { result := SubmitResult.rejected "Only Support addPrepaid method"
        sendCalls := 0 }
  | _ =>
    { result := SubmitResult.rejected "Not Valid Cid", sendCalls := 0 }

/-- Crust.addPrepaidAmount (keyed variant): signAndSend with the fileCid
passed at invocation; the promise behaviour is the addPrepaid resolution. -/
def addPrepaidAmount (fileCid : String) (updates : List StatusUpdate) :
    Option StoredResource :=
  prepaidResolve fileCid updates

/-- Crust.placeStorageOrder (keyed variant): signAndSend followed by the
placeStorageOrder event-scan promise over the update stream. -/
def placeStorageOrder (updates : List StatusUpdate) :
    Option StoredResource :=
  processUpdates updates

/-- The entry.type field of the builder input: "directory" | "others". -/
inductive EntryType where
  | directory
  | others
deriving DecidableEq, Repr

/-- An unsigned transaction payload as the builder constructs it:
the call name and the argument list passed to api.tx.market.<call>. -/
structure Payload where
  callName : String
  args : List JsVal
deriving DecidableEq, Repr

/-- CrustNoSeed.getPlaceStorageOrderRaw: builds
api.tx.market.placeStorageOrder(fileCid, fileSize ?? 0, tips ?? 0, memo)
where memo is "folder" for a directory entry and "" otherwise. -/
def getPlaceStorageOrderRaw (cid : String) (ty : EntryType)
    (size tips : Option Int) : Payload :=
  { callName := "placeStorageOrder"
    args := [JsVal.str cid, JsVal.num (size.getD 0), JsVal.num (tips.getD 0),
             JsVal.str (if ty = EntryType.directory then "folder" else "")] }

/-- CrustNoSeed.getAddPrepaidAmountRaw: builds
api.tx.market.addPrepaid(fileCid, amount). -/
def getAddPrepaidAmountRaw (cid : String) (amount : Int) : Payload :=
  { callName := "addPrepaid", args := [JsVal.str cid, JsVal.num amount] }

/-- The fixed idle countdown of the timeout variant: countDownSec = 60. -/
def countDownSec : Nat := 60

/-- The observable state of the idle-timeout connection manager: whether the
api transport is connected, and the seconds remaining on the pending
setTimeout(disconnect) countdown, if one is armed. -/
structure IdleMgr where
  connected : Bool
  idleTimer : Option Nat
deriving DecidableEq, Repr

/-- CrustNoSeed.isConnected (idle-timeout variant): api.isConnected. -/
def isConnected (s : IdleMgr) : Bool := s.connected

/-- A successful CrustNoSeed.isReadyOrError call in the idle-timeout
variant: when not connected it first runs connect() (a fresh ApiPromise,
awaited ready), then awaits readiness, clears the pending countdown and
arms a new 60-second one.  Either way the post-state is connected with a
full countdown. -/
def isReadyOrError (_s : IdleMgr) : IdleMgr :=
  { connected := true, idleTimer := some countDownSec }

/-- The passage of dt seconds with no library call.  If the countdown is
armed and expires within dt, the setTimeout fires this.disconnect: the
transport closes and the (now consumed) timer is gone.  Otherwise the
countdown just runs down. -/
def elapse (s : IdleMgr) (dt : Nat) : IdleMgr :=
  match s.idleTimer with
  | none => s
  | some t =>
    if dt < t then { s with idleTimer := some (t - dt) }
    else { connected := false, idleTimer := none }

/-- Resource-level state of the plain connection manager of the idle-timeout
module: the id of the ApiPromise handle currently referenced by the private
api field, the next fresh handle id, and the ids of every transport that was
started and never disconnected. -/
structure ConnMgr where
  apiId : Nat
  nextId : Nat
  live : List Nat
deriving DecidableEq, Repr

/-- Constructor state: one ApiPromise has been created (its WsProvider
auto-connects), referenced by the api field. -/
def connMgrInit : ConnMgr := { apiId := 0, nextId := 1, live := [0] }

/-- CrustNoSeed.connect (idle-timeout variant): assigns a brand-new
ApiPromise over a new WsProvider to the api field and awaits its readiness.
The previously referenced transport is not disconnected. -/
def connect (s : ConnMgr) : ConnMgr :=
  { apiId := s.nextId, nextId := s.nextId + 1, live := s.live ++ [s.nextId] }

/-- The registry helper loop (validReady in getUseCrust / useCrustNoSeed).
Client instances are identified by allocation order: cur is the memoized
instance, next the id the factory newCrust() would allocate, and ready
says which instances pass their isReadyOrError check.  The loop returns
the first instance whose readiness check succeeds, together with the
allocator state; fuel bounds the otherwise unbounded recursion. -/
def validReady (ready : Nat → Bool) : Nat → Nat → Nat → Option (Nat × Nat)
  | 0, _, _ => none
  | Nat.succ fuel, cur, next =>
    if ready cur then some (cur, next)
    else validReady ready fuel next (next + 1)

/-- Per-replica state inside an OrderStatus (interface OrderStatus). -/
structure Replica where
  who : String
  valid_at : String
  anchor : String
  is_reported : Bool
  created_at : Option String
deriving DecidableEq, Repr

/-- interface OrderStatus: the normalized on-chain order snapshot returned
by getOrderStatus; replicas is the holder-keyed mapping. -/
structure OrderStatus where
  file_size : String
  spower : String
  expired_at : String
  calculated_at : String
  amount : String
  prepaid : String
  reported_replica_count : String
  remaining_paid_count : String
  replicas : List (String × Replica)
deriving DecidableEq, Repr

/-- getOrderStatus: a single read of api.query.market.filesV2(fileCid),
returning the normalized snapshot or null.  The chain state is passed in as
a function from content identifier to the query result. -/
def getOrderStatus (chain : String → Option OrderStatus) (fileCid : String) :
    Option OrderStatus :=
  chain fileCid

/-- Outcome of the part_002 Crust.placeStorageOrder variant: either the
early throw, or the submission promise outcome. -/
inductive V2Result where
  | thrown (msg : String)
  | submitted (r : Option StoredResource)
deriving DecidableEq, Repr

/-- Outcome of the part_002 variant together with whether a transaction was
built and how many broadcast (signAndSend) calls were made. -/
structure V2Outcome where
  result : V2Result
  txBuilt : Bool
  sendCalls : Nat
deriving DecidableEq, Repr

/-- Crust.placeStorageOrder of the part_002 variant: after awaiting
readiness it queries getOrderStatus for the entry cid (normalized to v1
text form); a non-null result throws Error("File has already been stored")
before any transaction is built, signed or sent; a null result builds the
placeStorageOrder transaction, signAndSends it once, and runs the
event-scan promise. -/
def placeStorageOrderV2 (chain : String → Option OrderStatus)
    (cidV1 : String) (updates : List StatusUpdate) : V2Outcome :=
  match getOrderStatus chain cidV1 with
  | some _ =>
    { result := V2Result.thrown "File has already been stored"
      txBuilt := false, sendCalls := 0 }
  | none =>
    { result := V2Result.submitted (processUpdates updates)
      txBuilt := true, sendCalls := 1 }

/-! ## Helper lemmas about the submission protocol -/

/-- The running cid accumulator of the event scan, as a fold: a FileSuccess
event overwrites the accumulator with its last data argument, every other
event leaves it unchanged. -/
def cidFold (evs : List Event) (acc : Option String) : Option String :=
  evs.foldl
    (fun a e => if e.method = "FileSuccess" then e.data.getLast? else a) acc

lemma cidFold_nil (acc : Option String) : cidFold [] acc = acc := rfl

lemma cidFold_cons (e : Event) (rest : List Event) (acc : Option String) :
    cidFold (e :: rest) acc =
      cidFold rest
        (if e.method = "FileSuccess" then e.data.getLast? else acc) := rfl

lemma cidFold_append (a b : List Event) (acc : Option String) :
    cidFold (a ++ b) acc = cidFold b (cidFold a acc) :=
  List.foldl_append _ _ _ _

lemma cidFold_no_fs (evs : List Event) (acc : Option String)
    (h : ∀ e ∈ evs, e.method ≠ "FileSuccess") : cidFold evs acc = acc := by
  induction evs generalizing acc with
  | nil => rfl
  | cons e rest ih =>
    rw [cidFold_cons, if_neg (h e (by simp))]
    exact ih acc (fun x hx => h x (by simp [hx]))

/-- The scan settles at the first ExtrinsicSuccess event, with the cid
accumulated over the prefix before it. -/
lemma scanEvents_first_es (l1 : List Event) (es : Event) (l2 : List Event)
    (acc : Option String)
    (h1 : ∀ e ∈ l1, e.method ≠ "ExtrinsicSuccess")
    (hes : es.method = "ExtrinsicSuccess") :
    scanEvents (l1 ++ es :: l2) acc = some (cidFold l1 acc) := by
  induction l1 generalizing acc with
  | nil =>
    have hfs : es.method ≠ "FileSuccess" := by rw [hes]; decide
    rw [List.nil_append, scanEvents, if_neg hfs, if_pos hes, cidFold_nil]
  | cons e rest ih =>
    have hne : e.method ≠ "ExtrinsicSuccess" := h1 e (by simp)
    rw [List.cons_append, scanEvents]
    simp only [if_neg hne]
    rw [ih _ (fun x hx => h1 x (by simp [hx])), cidFold_cons]

lemma placeOrderStep_some (r : StoredResource) (u : StatusUpdate) :
    placeOrderStep (some r) u = some r := rfl

lemma placeOrderStep_none (u : StatusUpdate) :
    placeOrderStep none u =
      (if u.isInBlock then
        match scanEvents u.events none with
        | some cid => some { hash := u.txHash, cid := cid }
        | none => none
      else none) := rfl

/-- An already-resolved promise ignores every further status update. -/
lemma foldl_placeOrderStep_resolved (l : List StatusUpdate)
    (r : StoredResource) : l.foldl placeOrderStep (some r) = some r := by
  induction l with
  | nil => rfl
  | cons u l ih => rw [List.foldl_cons, placeOrderStep_some]; exact ih

/-- Status updates that never report inclusion leave the promise pending. -/
lemma foldl_placeOrderStep_pending (pre : List StatusUpdate)
    (h : ∀ v ∈ pre, v.isInBlock = false) :
    pre.foldl placeOrderStep none = none := by
  induction pre with
  | nil => rfl
  | cons v l ih =>
    have hv : placeOrderStep none v = none := by
      rw [placeOrderStep_none, if_neg (by simp [h v (by simp)])]
    rw [List.foldl_cons, hv]
    exact ih (fun x hx => h x (by simp [hx]))

lemma prepaidStep_some (cid : String) (r : StoredResource)
    (u : StatusUpdate) : prepaidStep cid (some r) u = some r := rfl

lemma prepaidStep_none (cid : String) (u : StatusUpdate) :
    prepaidStep cid none u =
      (if u.isInBlock then some { hash := u.inBlockHash, cid := some cid }
       else none) := rfl

lemma foldl_prepaidStep_resolved (cid : String) (l : List StatusUpdate)
    (r : StoredResource) : l.foldl (prepaidStep cid) (some r) = some r := by
  induction l with
  | nil => rfl
  | cons u l ih => rw [List.foldl_cons, prepaidStep_some]; exact ih

lemma foldl_prepaidStep_pending (cid : String) (pre : List StatusUpdate)
    (h : ∀ v ∈ pre, v.isInBlock = false) :
    pre.foldl (prepaidStep cid) none = none := by
  induction pre with
  | nil => rfl
  | cons v l ih =>
    have hv : prepaidStep cid none v = none := by
      rw [prepaidStep_none, if_neg (by simp [h v (by simp)])]
    rw [List.foldl_cons, hv]
    exact ih (fun x hx => h x (by simp [hx]))

/-! ## Claim theorems -/

/-- C1: for a placeStorageOrder submission whose included-block update
carries a FileSuccess event with last data argument c, later followed by
an ExtrinsicSuccess event (with no other FileSuccess or ExtrinsicSuccess
between them and no earlier ExtrinsicSuccess), the promise resolves with
the transaction hash and cid c, and the result is the same whatever
further status updates arrive after resolution: it resolves exactly once.
Covers both Crust.placeStorageOrder and the raw submission path. -/
theorem C1_place_order_resolves_once
    (pre post : List StatusUpdate) (u : StatusUpdate)
    (a b tail : List Event) (fs es : Event) (c : String)
    (hpre : ∀ v ∈ pre, v.isInBlock = false)
    (hu : u.isInBlock = true)
    (hev : u.events = a ++ fs :: (b ++ es :: tail))
    (hfs : fs.method = "FileSuccess")
    (hc : fs.data.getLast? = some c)
    (hes : es.method = "ExtrinsicSuccess")
    (ha : ∀ e ∈ a, e.method ≠ "ExtrinsicSuccess")
    (hb : ∀ e ∈ b, e.method ≠ "ExtrinsicSuccess")
    (hbfs : ∀ e ∈ b, e.method ≠ "FileSuccess") :
    placeStorageOrder (pre ++ u :: post) =
      some { hash := u.txHash, cid := some c } ∧
    ∀ v : JsVal,
      placeStorageOrderRaw { methodName := "placeStorageOrder", argCid := v }
          (pre ++ u :: post) =
        { result := SubmitResult.resolved { hash := u.txHash, cid := some c }
          sendCalls := 1 } := by
  have hscan : scanEvents u.events none = some (some c) := by
    have hl1 : ∀ e ∈ a ++ fs :: b, e.method ≠ "ExtrinsicSuccess" := by
      intro e he
      rcases List.mem_append.mp he with h | h
      · exact ha e h
      · rcases List.mem_cons.mp h with rfl | h
        · rw [hfs]; decide
        · exact hb e h
    have hsplit : a ++ fs :: (b ++ es :: tail) = (a ++ fs :: b) ++ es :: tail := by
      simp
    rw [hev, hsplit, scanEvents_first_es (a ++ fs :: b) es tail none hl1 hes]
    rw [cidFold_append, cidFold_cons, if_pos hfs, hc, cidFold_no_fs b _ hbfs]
  have hmain : processUpdates (pre ++ u :: post) =
      some { hash := u.txHash, cid := some c } := by
    unfold processUpdates
    rw [List.foldl_append, foldl_placeOrderStep_pending pre hpre,
      List.foldl_cons]
    have hstep : placeOrderStep none u =
        some { hash := u.txHash, cid := some c } := by
      rw [placeOrderStep_none, if_pos hu, hscan]
    rw [hstep]
    exact foldl_placeOrderStep_resolved post _
  refine ⟨hmain, fun v => ?_⟩
  simp [placeStorageOrderRaw, processUpdates] at hmain ⊢
  rw [hmain]

/-- Witness for C1 at the spec's concrete scenario: FileSuccess with last
argument "bafy123" followed by ExtrinsicSuccess, with one further in-block
update arriving after resolution. -/
theorem C1_place_order_resolves_once_witness :
    placeStorageOrder
        ([] ++ (⟨true, [⟨"FileSuccess", ["bafy123"]⟩, ⟨"ExtrinsicSuccess", []⟩],
          "0xT1", "0xB1"⟩ : StatusUpdate) ::
          [⟨true, [], "0xT1", "0xB1"⟩]) =
      some { hash := "0xT1", cid := some "bafy123" } ∧
    ∀ v : JsVal,
      placeStorageOrderRaw { methodName := "placeStorageOrder", argCid := v }
          ([] ++ (⟨true, [⟨"FileSuccess", ["bafy123"]⟩, ⟨"ExtrinsicSuccess", []⟩],
            "0xT1", "0xB1"⟩ : StatusUpdate) ::
            [⟨true, [], "0xT1", "0xB1"⟩]) =
        { result := SubmitResult.resolved { hash := "0xT1", cid := some "bafy123" }
          sendCalls := 1 } :=
  C1_place_order_resolves_once [] [⟨true, [], "0xT1", "0xB1"⟩]
    ⟨true, [⟨"FileSuccess", ["bafy123"]⟩, ⟨"ExtrinsicSuccess", []⟩],
      "0xT1", "0xB1"⟩
    [] [] [] ⟨"FileSuccess", ["bafy123"]⟩ ⟨"ExtrinsicSuccess", []⟩ "bafy123"
    (by simp) rfl rfl rfl rfl rfl (by simp) (by simp) (by simp)

/-- C2 counterexample: a payload whose call name is not addPrepaid but whose
decoded cid argument is not a string (here a payload such as a transfer,
decoded with methodName "placeStorageOrder" and a numeric cid field) is
rejected by the prepaid raw path with "Not Valid Cid" — an error that does
not name the expected kind — because the cid check runs before the
method-kind check.  No broadcast happens, but the claimed error is wrong. -/
theorem C2_counterexample :
    addPrepaidAmountRaw
        { methodName := "placeStorageOrder", argCid := JsVal.num 42 } [] =
      { result := SubmitResult.rejected "Not Valid Cid", sendCalls := 0 } ∧
    ("placeStorageOrder" : String) ≠ "addPrepaid" ∧
    ("Not Valid Cid" : String) ≠ "Only Support addPrepaid method" := by
  refine ⟨by decide, by decide, by decide⟩

/-- C2 amended: a mismatched call name on the place-order raw path is always
rejected with the error naming placeStorageOrder and no broadcast; on the
prepaid raw path the mismatch is rejected with the error naming addPrepaid
only when the payload's cid argument is a string — when it is not, the
"Not Valid Cid" rejection fires first (still with no broadcast). -/
theorem C2_amended_wrong_method (tx : Tx) (updates : List StatusUpdate) :
    (tx.methodName ≠ "placeStorageOrder" →
      placeStorageOrderRaw tx updates =
        { result := SubmitResult.rejected "Only Support placeStorageOrder method"
          sendCalls := 0 }) ∧
    (∀ c, tx.argCid = JsVal.str c → tx.methodName ≠ "addPrepaid" →
      addPrepaidAmountRaw tx updates =
        { result := SubmitResult.rejected "Only Support addPrepaid method"
          sendCalls := 0 }) ∧
    ((∀ s, tx.argCid ≠ JsVal.str s) →
      addPrepaidAmountRaw tx updates =
        { result := SubmitResult.rejected "Not Valid Cid"
          sendCalls := 0 }) := by
  refine ⟨fun h => ?_, fun c hc h => ?_, fun h => ?_⟩
  · simp [placeStorageOrderRaw, h]
  · simp [addPrepaidAmountRaw, hc, h]
  · rcases htx : tx.argCid with s | n | _
    · exact absurd htx (h s)
    · simp [addPrepaidAmountRaw, htx]
    · simp [addPrepaidAmountRaw, htx]

/-- Witness for C2 amended: a payload with call name "transfer" and a
string cid argument, fed to the prepaid raw path. -/
theorem C2_amended_wrong_method_witness :
    addPrepaidAmountRaw
        { methodName := "transfer", argCid := JsVal.str "cidw" } [] =
      { result := SubmitResult.rejected "Only Support addPrepaid method"
        sendCalls := 0 } :=
  (C2_amended_wrong_method
    { methodName := "transfer", argCid := JsVal.str "cidw" } []).2.1
    "cidw" rfl (by decide)

/-- C3: an addPrepaid submission resolves on the first in-block status
update with the block hash reported in that update's InBlock field and the
content identifier known at invocation, independently of the events carried
by the update.  Covers Crust.addPrepaidAmount and the raw path when the
payload decodes to an addPrepaid call with a string cid. -/
theorem C3_prepaid_first_in_block
    (pre post : List StatusUpdate) (u : StatusUpdate) (cid : String)
    (hpre : ∀ v ∈ pre, v.isInBlock = false)
    (hu : u.isInBlock = true) :
    addPrepaidAmount cid (pre ++ u :: post) =
      some { hash := u.inBlockHash, cid := some cid } ∧
    addPrepaidAmountRaw { methodName := "addPrepaid", argCid := JsVal.str cid }
        (pre ++ u :: post) =
      { result := SubmitResult.resolved { hash := u.inBlockHash, cid := some cid }
        sendCalls := 1 } := by
  have hres : prepaidResolve cid (pre ++ u :: post) =
      some { hash := u.inBlockHash, cid := some cid } := by
    unfold prepaidResolve
    rw [List.foldl_append, foldl_prepaidStep_pending cid pre hpre,
      List.foldl_cons]
    have hstep : prepaidStep cid none u =
        some { hash := u.inBlockHash, cid := some cid } := by
      rw [prepaidStep_none, if_pos hu]
    rw [hstep]
    exact foldl_prepaidStep_resolved cid post _
  refine ⟨hres, ?_⟩
  simp only [addPrepaidAmountRaw]
  simp [hres]

/-- Witness for C3 at the spec's concrete scenario: a single in-block
update with InBlock hash "0xABC". -/
theorem C3_prepaid_first_in_block_witness :
    addPrepaidAmount "cid3" ([] ++ (⟨true, [], "0xT3", "0xABC"⟩ : StatusUpdate) :: []) =
      some { hash := "0xABC", cid := some "cid3" } ∧
    addPrepaidAmountRaw { methodName := "addPrepaid", argCid := JsVal.str "cid3" }
        ([] ++ (⟨true, [], "0xT3", "0xABC"⟩ : StatusUpdate) :: []) =
      { result := SubmitResult.resolved { hash := "0xABC", cid := some "cid3" }
        sendCalls := 1 } :=
  C3_prepaid_first_in_block [] [] ⟨true, [], "0xT3", "0xABC"⟩ "cid3"
    (by simp) rfl

/-- C4 counterexample: an addPrepaid submission whose in-block update has
transaction hash "0xTranHash" and block hash "0xBlockHash" resolves with
hash = "0xBlockHash" — the block hash, not the transaction hash. -/
theorem C4_counterexample :
    addPrepaidAmount "cid4" [⟨true, [], "0xTranHash", "0xBlockHash"⟩] =
      some { hash := "0xBlockHash", cid := some "cid4" } ∧
    ("0xBlockHash" : String) ≠ "0xTranHash" := by
  refine ⟨by decide, by decide⟩

/-- C4 amended: whenever a placeStorageOrder submission resolves, the hash
field is the transaction hash of the resolving in-block update; whenever an
addPrepaid submission resolves, the hash field is instead the block hash
reported in the resolving update's InBlock field (and the cid is the known
content identifier). -/
theorem C4_amended_hash_fields (updates : List StatusUpdate) :
    (∀ r, processUpdates updates = some r →
      ∃ u, u ∈ updates ∧ u.isInBlock = true ∧ r.hash = u.txHash) ∧
    (∀ cid r, prepaidResolve cid updates = some r →
      ∃ u, u ∈ updates ∧ u.isInBlock = true ∧
        r.hash = u.inBlockHash ∧ r.cid = some cid) := by
  have haux1 : ∀ (l : List StatusUpdate) (acc : Option StoredResource)
      (r : StoredResource), l.foldl placeOrderStep acc = some r →
      acc = some r ∨ ∃ u, u ∈ l ∧ u.isInBlock = true ∧ r.hash = u.txHash := by
    intro l
    induction l with
    | nil => intro acc r h; exact Or.inl h
    | cons u l ih =>
      intro acc r h
      rw [List.foldl_cons] at h
      rcases ih _ r h with h2 | h2
      · cases acc with
        | some a => rw [placeOrderStep_some] at h2; exact Or.inl h2
        | none =>
          rw [placeOrderStep_none] at h2
          by_cases hib : u.isInBlock = true
          · rw [if_pos hib] at h2
            cases hscan : scanEvents u.events none with
            | none => rw [hscan] at h2; exact absurd h2 (by simp)
            | some cid =>
              rw [hscan] at h2
              have hr : ({ hash := u.txHash, cid := cid } : StoredResource) = r :=
                Option.some.inj h2
              exact Or.inr ⟨u, by simp, hib, by rw [← hr]⟩
          · rw [if_neg hib] at h2; exact absurd h2 (by simp)
      · rcases h2 with ⟨w, hw, hib, hh⟩
        exact Or.inr ⟨w, by simp [hw], hib, hh⟩
  have haux2 : ∀ (cid : String) (l : List StatusUpdate)
      (acc : Option StoredResource) (r : StoredResource),
      l.foldl (prepaidStep cid) acc = some r →
      acc = some r ∨ ∃ u, u ∈ l ∧ u.isInBlock = true ∧
        r = { hash := u.inBlockHash, cid := some cid } := by
    intro cid l
    induction l with
    | nil => intro acc r h; exact Or.inl h
    | cons u l ih =>
      intro acc r h
      rw [List.foldl_cons] at h
      rcases ih _ r h with h2 | h2
      · cases acc with
        | some a => rw [prepaidStep_some] at h2; exact Or.inl h2
        | none =>
          rw [prepaidStep_none] at h2
          by_cases hib : u.isInBlock = true
          · rw [if_pos hib] at h2
            have hr : ({ hash := u.inBlockHash, cid := some cid } :
                StoredResource) = r := Option.some.inj h2
            exact Or.inr ⟨u, by simp, hib, hr.symm⟩
          · rw [if_neg hib] at h2; exact absurd h2 (by simp)
      · rcases h2 with ⟨w, hw, hib, hh⟩
        exact Or.inr ⟨w, by simp [hw], hib, hh⟩
  constructor
  · intro r h
    rcases haux1 updates none r h with h2 | h2
    · exact absurd h2 (by simp)
    · exact h2
  · intro cid r h
    rcases haux2 cid updates none r h with h2 | h2
    · exact absurd h2 (by simp)
    · rcases h2 with ⟨u, hu, hib, rfl⟩
      exact ⟨u, hu, hib, rfl, rfl⟩

/-- Witness for C4 amended at a concrete resolving placeStorageOrder
stream: the resolved hash equals the in-block update's transaction hash. -/
theorem C4_amended_hash_fields_witness :
    ∃ u, u ∈ [(⟨true, [⟨"ExtrinsicSuccess", []⟩], "0xT4", "0xB4"⟩ : StatusUpdate)] ∧
      u.isInBlock = true ∧
      (StoredResource.mk "0xT4" none).hash = u.txHash :=
  (C4_amended_hash_fields
    [⟨true, [⟨"ExtrinsicSuccess", []⟩], "0xT4", "0xB4"⟩]).1
    { hash := "0xT4", cid := none } (by decide)

/-- C5: a raw addPrepaid submission whose decoded payload's cid argument is
not a string is rejected with "Not Valid Cid" and performs no broadcast. -/
theorem C5_invalid_cid_no_broadcast (tx : Tx) (updates : List StatusUpdate)
    (h : ∀ s, tx.argCid ≠ JsVal.str s) :
    addPrepaidAmountRaw tx updates =
      { result := SubmitResult.rejected "Not Valid Cid", sendCalls := 0 } := by
  rcases htx : tx.argCid with s | n | _
  · exact absurd htx (h s)
  · simp [addPrepaidAmountRaw, htx]
  · simp [addPrepaidAmountRaw, htx]

/-- Witness for C5 at the spec's concrete example: the cid argument is the
number 42. -/
theorem C5_invalid_cid_no_broadcast_witness :
    addPrepaidAmountRaw { methodName := "addPrepaid", argCid := JsVal.num 42 } [] =
      { result := SubmitResult.rejected "Not Valid Cid", sendCalls := 0 } :=
  C5_invalid_cid_no_broadcast
    { methodName := "addPrepaid", argCid := JsVal.num 42 } []
    (fun _ h => JsVal.noConfusion h)

/-- C6: in the idle-timeout variant, after a successful readiness check and
at least countDownSec (60) seconds without a further call, the pending
countdown fires this.disconnect and isConnected() is false; the next
readiness check reconnects on its own and isConnected() is true again. -/
theorem C6_idle_timeout_reconnect (s : IdleMgr) (dt : Nat)
    (h : countDownSec ≤ dt) :
    isConnected (elapse (isReadyOrError s) dt) = false ∧
    isConnected (isReadyOrError (elapse (isReadyOrError s) dt)) = true := by
  have hnot : ¬ dt < countDownSec := not_lt.mpr h
  constructor
  · simp [isReadyOrError, elapse, isConnected, hnot]
  · simp [isReadyOrError, isConnected]

/-- Witness for C6 with the window elapsing exactly at 60 seconds. -/
theorem C6_idle_timeout_reconnect_witness :
    isConnected (elapse (isReadyOrError ⟨true, none⟩) 60) = false ∧
    isConnected (isReadyOrError (elapse (isReadyOrError ⟨true, none⟩) 60)) = true :=
  C6_idle_timeout_reconnect ⟨true, none⟩ 60 (by decide)

/-- The registry loop only ever returns an instance whose readiness check
succeeded, and that instance is either the memoized one or one allocated at
or after the current allocator position. -/
lemma validReady_returns_ready (ready : Nat → Bool) :
    ∀ (fuel cur next r next2 : Nat),
      validReady ready fuel cur next = some (r, next2) →
      ready r = true ∧ (r = cur ∨ next ≤ r) := by
  intro fuel
  induction fuel with
  | zero =>
    intro cur next r next2 h
    exact absurd h (by simp [validReady])
  | succ fuel ih =>
    intro cur next r next2 h
    by_cases hr : ready cur = true
    · rw [validReady, if_pos hr] at h
      have h1 : cur = r ∧ next = next2 := by
        have h2 := Option.some.inj h
        exact ⟨congrArg Prod.fst h2, congrArg Prod.snd h2⟩
      rcases h1 with ⟨rfl, rfl⟩
      exact ⟨hr, Or.inl rfl⟩
    · rw [validReady, if_neg hr] at h
      rcases ih next (next + 1) r next2 h with ⟨hready, hcase⟩
      refine ⟨hready, Or.inr ?_⟩
      rcases hcase with rfl | hle
      · exact le_refl r
      · exact Nat.le_of_succ_le hle

/-- C7: when the memoized instance's readiness check rejects and the loop
returns an instance, that instance is distinct from the memoized one, was
allocated by the factory during this access, and its own readiness check
succeeded before it was returned. -/
theorem C7_registry_fresh_instance (ready : Nat → Bool)
    (fuel cur next r next2 : Nat)
    (hfresh : cur < next)
    (hbad : ready cur = false)
    (hres : validReady ready fuel cur next = some (r, next2)) :
    r ≠ cur ∧ next ≤ r ∧ ready r = true := by
  rcases validReady_returns_ready ready fuel cur next r next2 hres with
    ⟨hready, hcase⟩
  rcases hcase with rfl | hle
  · rw [hbad] at hready; exact absurd hready (by simp)
  · exact ⟨Nat.ne_of_gt (lt_of_lt_of_le hfresh hle), hle, hready⟩

/-- Witness for C7: instance 0 fails its readiness check, the freshly
constructed instance 1 passes and is returned. -/
theorem C7_registry_fresh_instance_witness :
    (1 : Nat) ≠ 0 ∧ (1 : Nat) ≤ 1 ∧ (fun n => n == 1) 1 = true :=
  C7_registry_fresh_instance (fun n => n == 1) 2 0 1 1 2
    (by decide) (by decide) (by decide)

/-- C8: for every input, the place-order builder produces a payload whose
call name is placeStorageOrder and whose memo argument (the last builder
argument) is "folder" exactly when the entry type is directory and ""
exactly when it is others. -/
theorem C8_builder_call_and_memo (cid : String) (ty : EntryType)
    (size tips : Option Int) :
    (getPlaceStorageOrderRaw cid ty size tips).callName = "placeStorageOrder" ∧
    ((getPlaceStorageOrderRaw cid ty size tips).args.getLast? =
        some (JsVal.str "folder") ↔ ty = EntryType.directory) ∧
    ((getPlaceStorageOrderRaw cid ty size tips).args.getLast? =
        some (JsVal.str "") ↔ ty = EntryType.others) := by
  cases ty <;>
    exact ⟨rfl, by simp [getPlaceStorageOrderRaw],
      by simp [getPlaceStorageOrderRaw]⟩

/-- C9 counterexample: in the idle-timeout module, a connect() call on an
already-connected manager is not equivalent to having connected once — it
installs a fresh transport and never disconnects the old one, so after a
repeated connect more than one transport is live and the states differ. -/
theorem C9_counterexample :
    (connect (connect connMgrInit)).live.length ≠ 1 ∧
    connect (connect connMgrInit) ≠ connect connMgrInit := by
  refine ⟨by decide, by decide⟩

/-- C9 amended: connect() is safe to call in any state and always leaves
the manager referencing exactly one (fresh) transport handle, but it does
not dispose the previously held transport: every call adds one more live
transport, so repeated calls are not equivalent to a single call. -/
theorem C9_amended_connect_replaces (s : ConnMgr) :
    (connect s).apiId = s.nextId ∧
    (connect s).live = s.live ++ [s.nextId] ∧
    (connect s).live.length = s.live.length + 1 := by
  refine ⟨rfl, rfl, by simp [connect]⟩

/-- C10: the part_002 placeStorageOrder queries the order status for the
entry's cid first; a non-null result throws "File has already been stored"
with no transaction built and no broadcast, and a null result proceeds to
build and submit exactly once. -/
theorem C10_already_stored_guard (chain : String → Option OrderStatus)
    (cidV1 : String) (updates : List StatusUpdate) :
    ((getOrderStatus chain cidV1).isSome = true →
      placeStorageOrderV2 chain cidV1 updates =
        { result := V2Result.thrown "File has already been stored"
          txBuilt := false, sendCalls := 0 }) ∧
    (getOrderStatus chain cidV1 = none →
      placeStorageOrderV2 chain cidV1 updates =
        { result := V2Result.submitted (processUpdates updates)
          txBuilt := true, sendCalls := 1 }) := by
  constructor
  · intro h
    rcases hq : getOrderStatus chain cidV1 with _ | st
    · rw [hq] at h; exact absurd h (by simp)
    · unfold placeStorageOrderV2
      rw [hq]
  · intro h
    unfold placeStorageOrderV2
    rw [h]

/-- A concrete on-chain order snapshot used as the non-null query result. -/
def ost0 : OrderStatus :=
  { file_size := "100", spower := "100", expired_at := "10000"
    calculated_at := "1", amount := "1", prepaid := "0"
    reported_replica_count := "1", remaining_paid_count := "4"
    replicas := [("holder", ⟨"holder", "1", "anchor", true, some "1"⟩)] }

/-- Witness for C10: a chain on which the cid is already stored makes the
variant throw without building or sending anything. -/
theorem C10_already_stored_guard_witness :
    placeStorageOrderV2 (fun _ => some ost0) "cid10" [] =
      { result := V2Result.thrown "File has already been stored"
        txBuilt := false, sendCalls := 0 } :=
  (C10_already_stored_guard (fun _ => some ost0) "cid10" []).1 rfl

end CrustClient
